import Mathlib

/-!
Verification of the `tidal` structured binary logging library
(`src/include/tidal/tidal.h`), a header-only C++ writer that serializes
stream declarations and data records into a single append-only binary file.

The embedding models the byte-level effect of every operation:

* Machine integers are `Nat`; a `w`-byte little-endian field is produced by
  `leBytes w` (the host in the source is little-endian LP64, so
  `unsigned int` is 4 bytes, `unsigned long` is 8 bytes).
* The output `std::ofstream` is modelled by the `bytes` list plus an `ok`
  flag: `ofstream` does not throw (exceptions are disabled by default),
  writes on a failed stream are silently dropped, and opening a file that
  cannot be created merely leaves the stream in a failed state.  This is
  captured by `Log.out`, which appends only while `ok` is set.
* A logged scalar value is a `Value`: its declared `ScalarType` plus the bit
  pattern of its object representation (for `f32`/`f64` the IEEE-754 bits;
  the code copies the representation verbatim and never interprets it).
* An Eigen container is an `EigenMatrix`: its element width, shape, and the
  raw byte buffer in Eigen's own (column-major) storage order.  The code's
  `operator<<` for Eigen calls `file_.write(data.data(), data.size())`,
  where `data.size()` is the *element count*, so only the first
  `rows * cols` bytes of the buffer are written.
-/

namespace Tidal

/-- `enum class ScalarType : uint8_t` from tidal.h. -/
inductive ScalarType where
  | u8 | i8 | u16 | i16 | u32 | i32 | u64 | i64 | f32 | f64 | boolean
  deriving DecidableEq, Repr

/-- The one-byte wire value of a `ScalarType` (its position in the enum). -/
def ScalarType.tag : ScalarType → Nat
  | .u8 => 0
  | .i8 => 1
  | .u16 => 2
  | .i16 => 3
  | .u32 => 4
  | .i32 => 5
  | .u64 => 6
  | .i64 => 7
  | .f32 => 8
  | .f64 => 9
  | .boolean => 10

/-- `sizeof` of the C++ type a `ScalarType` stands for. -/
def ScalarType.width : ScalarType → Nat
  | .u8 => 1
  | .i8 => 1
  | .u16 => 2
  | .i16 => 2
  | .u32 => 4
  | .i32 => 4
  | .u64 => 8
  | .i64 => 8
  | .f32 => 4
  | .f64 => 8
  | .boolean => 1

/-- `enum class DataClass : uint8_t { SCALAR, VECTOR, MATRIX }` from tidal.h. -/
inductive DataClass where
  | SCALAR | VECTOR | MATRIX
  deriving DecidableEq, Repr

/-- The one-byte wire value of a `DataClass`. -/
def DataClass.tag : DataClass → Nat
  | .SCALAR => 0
  | .VECTOR => 1
  | .MATRIX => 2

/-- `enum class Marker : uint8_t { METADATA = 0xA5, LABELS = 0x66, DATA = 0xDB }`. -/
inductive Marker where
  | METADATA | LABELS | DATA
  deriving DecidableEq, Repr

/-- The one-byte wire value of a `Marker`. -/
def Marker.tag : Marker → Nat
  | .METADATA => 0xA5
  | .LABELS => 0x66
  | .DATA => 0xDB

/-- The `w` little-endian bytes of `v` (the host representation of an
unsigned integer field; the value is truncated mod `2 ^ (8 * w)` exactly as
storing into a `w`-byte machine integer would). -/
def leBytes (w v : Nat) : List Nat :=
  (List.range w).map fun i => v / 256 ^ i % 256

/-- The 4 bytes of an `unsigned int` / `uint32_t` field. -/
def u32le (v : Nat) : List Nat := leBytes 4 v

/-- The 8 bytes of an `unsigned long` field (LP64 host). -/
def u64le (v : Nat) : List Nat := leBytes 8 v

/-- One scalar value passed to `ScalarStream::log`: its declared type and
the bit pattern of its object representation. -/
structure Value where
  ty : ScalarType
  bits : Nat
  deriving DecidableEq, Repr

/-- The bytes `Log::operator<<(const T&)` emits for a value:
`file_.write(reinterpret_cast<const char*>(&data), sizeof(T))`. -/
def Value.serialize (v : Value) : List Nat := leBytes v.ty.width v.bits

/-- An `Eigen::Matrix<T, rows, cols>` argument: `elemWidth = sizeof(T)`,
`storage` is the raw byte buffer in Eigen's storage order, of length
`rows * cols * elemWidth`. -/
structure EigenMatrix where
  elemWidth : Nat
  rows : Nat
  cols : Nat
  storage : List Nat
  deriving DecidableEq, Repr

/-- `Eigen::Matrix::size()`: the number of elements. -/
def EigenMatrix.size (m : EigenMatrix) : Nat := m.rows * m.cols

/-- The state of a `tidal::Log`: the bytes written to the file so far, the
stream's good/failed state, and the `next_id_` counter (an `unsigned int`,
kept below `2 ^ 32`). -/
structure Log where
  bytes : List Nat
  ok : Bool
  nextId : Nat
  deriving DecidableEq, Repr

/-- `Log::Log(filename)`: the `std::ofstream` member is opened; the
constructor itself cannot fail.  `openOk` records whether the destination
could be opened — when it could not, the stream is simply in a failed
state and the constructor still returns a `Log`. -/
def mkLog (openOk : Bool) : Log := ⟨[], openOk, 0⟩

/-- One `file_.write` call: `std::ofstream` appends the bytes while the
stream is good and silently does nothing once it has failed (exceptions
are disabled by default, so nothing is thrown either way). -/
def Log.out (l : Log) (bs : List Nat) : Log :=
  if l.ok then { l with bytes := l.bytes ++ bs } else l

/-- `Log::operator<<(const std::string&)`: the content bytes, then a
separate write of the `'\0'` terminator. -/
def Log.outStr (l : Log) (s : List Nat) : Log :=
  (l.out s).out [0]

/-- `Log::operator<<(const Eigen::Matrix<T, rows, cols>&)`:
`file_.write(data.data(), data.size())` — `data.size()` is the element
count, so exactly the first `rows * cols` bytes of the buffer are written. -/
def Log.outEigen (l : Log) (m : EigenMatrix) : Log :=
  l.out (m.storage.take m.size)

/-- `Stream::write_data_prefix(timestamp)`:
`log_ << Marker::DATA << id_ << timestamp`. -/
def writeDataHead (l : Log) (id ts : Nat) : Log :=
  ((l.out [Marker.DATA.tag]).out (u32le id)).out (u64le ts)

/-- `ScalarStream::log_recurse`: one `log_ << value` per argument, in order. -/
def logRecurse (l : Log) : List Value → Log
  | [] => l
  | v :: tail => logRecurse (l.out v.serialize) tail

/-- `ScalarStream::log(timestamp, data...)`. -/
def scalarLog (l : Log) (id ts : Nat) (vs : List Value) : Log :=
  logRecurse (writeDataHead l id ts) vs

/-- `ScalarStream::label_recurse`: each label as a null-terminated string. -/
def labelRecurse (l : Log) : List (List Nat) → Log
  | [] => l
  | s :: rest => labelRecurse (l.outStr s) rest

/-- `ScalarStream::set_labels(labels...)`:
`log_ << Marker::LABELS << id_;` then the labels.  The source has no guard
against repeated calls: every call runs this same body. -/
def setLabels (l : Log) (id : Nat) (ls : List (List Nat)) : Log :=
  labelRecurse ((l.out [Marker.LABELS.tag]).out (u32le id)) ls

/-- `VectorStream::log(timestamp, data)`. -/
def vectorLog (l : Log) (id ts : Nat) (m : EigenMatrix) : Log :=
  (writeDataHead l id ts).outEigen m

/-- `MatrixStream::log(timestamp, data)` (same body as the vector variant). -/
def matrixLog (l : Log) (id ts : Nat) (m : EigenMatrix) : Log :=
  (writeDataHead l id ts).outEigen m

/-- The compile-time shape of a declared stream: the template arguments of
`add_scalar_stream<Ts...>` / `add_vector_stream<T, elements>` /
`add_matrix_stream<T, rows, cols>`. -/
inductive StreamDecl where
  | scalar (fields : List ScalarType)
  | vector (ty : ScalarType) (elements : Nat)
  | matrix (ty : ScalarType) (rows cols : Nat)
  deriving DecidableEq, Repr

/-- `ScalarStream::format_recurse`: one type tag byte per field, in order. -/
def formatRecurse (l : Log) : List ScalarType → Log
  | [] => l
  | t :: rest => formatRecurse (l.out [t.tag]) rest

/-- The `write_format` override of each stream variant. -/
def writeFormat (l : Log) : StreamDecl → Log
  | .scalar fs =>
    formatRecurse ((l.out [DataClass.SCALAR.tag]).out (u32le fs.length)) fs
  | .vector ty n =>
    ((l.out [DataClass.VECTOR.tag]).out [ty.tag]).out (u32le n)
  | .matrix ty r c =>
    (((l.out [DataClass.MATRIX.tag]).out [ty.tag]).out (u32le r)).out (u32le c)

/-- `Stream::write_header(name)`:
`log_ << Marker::METADATA << id_ << name; write_format();`. -/
def writeHeader (l : Log) (id : Nat) (name : List Nat) (d : StreamDecl) : Log :=
  writeFormat (((l.out [Marker.METADATA.tag]).out (u32le id)).outStr name) d

/-- `Log::add_*_stream(name)`: allocate `next_id_++` (a wrapping
`unsigned int`), write the header, return the new state and the id the
handle was constructed with. -/
def addStream (l : Log) (name : List Nat) (d : StreamDecl) : Log × Nat :=
  let id := l.nextId
  let l2 : Log := { l with nextId := (l.nextId + 1) % 2 ^ 32 }
  (writeHeader l2 id name d, id)

/-- One caller-visible operation on a `Log` and its handles.  A handle op
carries the id its handle was constructed with. -/
inductive Op where
  | add (name : List Nat) (d : StreamDecl)
  | slog (id ts : Nat) (vs : List Value)
  | vlog (id ts : Nat) (m : EigenMatrix)
  | mlog (id ts : Nat) (m : EigenMatrix)
  | labels (id : Nat) (ls : List (List Nat))
  deriving Repr

/-- The effect of one operation, as implemented in tidal.h. -/
def applyOp (l : Log) : Op → Log
  | .add name d => (addStream l name d).1
  | .slog id ts vs => scalarLog l id ts vs
  | .vlog id ts m => vectorLog l id ts m
  | .mlog id ts m => matrixLog l id ts m
  | .labels id ls => setLabels l id ls

/-- Run a sequence of operations left to right. -/
def runOps (l : Log) : List Op → Log
  | [] => l
  | op :: rest => runOps (applyOp l op) rest

/-- The ids handed out by a sequence of `add_*_stream` calls (each pair is
the stream's name and shape), in declaration order. -/
def collectIds (l : Log) : List (List Nat × StreamDecl) → List Nat
  | [] => []
  | nd :: rest =>
    let r := addStream l nd.1 nd.2
    r.2 :: collectIds r.1 rest

/-! ### The wire format as §4.2/§6 of the spec describe it (for refinement
statements: these follow the spec's words, the definitions above follow
the source). -/

/-- Modelled from the spec: the kind-specific shape payload of a metadata
record (scalar: 4-byte field count then one tag byte per field in declared
order; vector: tag then 4-byte element count; matrix: tag then 4-byte row
count then 4-byte column count). -/
def specShapeBytes : StreamDecl → List Nat
  | .scalar fs => u32le fs.length ++ fs.map ScalarType.tag
  | .vector ty n => [ty.tag] ++ u32le n
  | .matrix ty r c => [ty.tag] ++ u32le r ++ u32le c

/-- Modelled from the spec: the one-byte StreamKind tag of a declaration. -/
def specKindTag : StreamDecl → Nat
  | .scalar _ => 0
  | .vector _ _ => 1
  | .matrix _ _ _ => 2

/-- Modelled from the spec: a complete metadata record,
`MARKER(METADATA) | StreamId(4B) | name(string) | StreamKind(1B) | shape`. -/
def specMetadataRecord (id : Nat) (name : List Nat) (d : StreamDecl) : List Nat :=
  [0xA5] ++ u32le id ++ name ++ [0] ++ [specKindTag d] ++ specShapeBytes d

/-! ### Basic lemmas about the sink -/

theorem out_ok (l : Log) (bs : List Nat) : (l.out bs).ok = l.ok := by
  unfold Log.out; split <;> rfl

theorem out_nextId (l : Log) (bs : List Nat) : (l.out bs).nextId = l.nextId := by
  unfold Log.out; split <;> rfl

theorem out_bytes (l : Log) (bs : List Nat) (h : l.ok = true) :
    (l.out bs).bytes = l.bytes ++ bs := by
  unfold Log.out; rw [h]; rfl

theorem out_not_ok (l : Log) (bs : List Nat) (h : l.ok = false) :
    l.out bs = l := by
  unfold Log.out; rw [h]; rfl

theorem leBytes_length (w v : Nat) : (leBytes w v).length = w := by
  simp [leBytes]

/-! ### Flattening lemmas: each operation appends one contiguous record -/

theorem logRecurse_ok (vs : List Value) : ∀ l : Log, (logRecurse l vs).ok = l.ok := by
  induction vs with
  | nil => intro l; rfl
  | cons v tail ih => intro l; rw [logRecurse, ih, out_ok]

theorem logRecurse_bytes (vs : List Value) :
    ∀ l : Log, l.ok = true →
      (logRecurse l vs).bytes = l.bytes ++ (vs.map Value.serialize).flatten := by
  induction vs with
  | nil => intro l h; simp [logRecurse]
  | cons v tail ih =>
    intro l h
    rw [logRecurse, ih _ (by rw [out_ok]; exact h), out_bytes _ _ h]
    simp

theorem logRecurse_not_ok (vs : List Value) :
    ∀ l : Log, l.ok = false → logRecurse l vs = l := by
  induction vs with
  | nil => intro l _; rfl
  | cons v tail ih =>
    intro l h
    rw [logRecurse, out_not_ok _ _ h, ih _ h]

theorem outStr_bytes (l : Log) (s : List Nat) (h : l.ok = true) :
    (l.outStr s).bytes = l.bytes ++ s ++ [0] := by
  rw [Log.outStr, out_bytes _ _ (by rw [out_ok]; exact h), out_bytes _ _ h]

theorem outStr_ok (l : Log) (s : List Nat) : (l.outStr s).ok = l.ok := by
  rw [Log.outStr, out_ok, out_ok]

theorem outStr_nextId (l : Log) (s : List Nat) : (l.outStr s).nextId = l.nextId := by
  rw [Log.outStr, out_nextId, out_nextId]

theorem outStr_not_ok (l : Log) (s : List Nat) (h : l.ok = false) :
    l.outStr s = l := by
  rw [Log.outStr, out_not_ok _ _ h, out_not_ok _ _ h]

theorem labelRecurse_ok (ls : List (List Nat)) :
    ∀ l : Log, (labelRecurse l ls).ok = l.ok := by
  induction ls with
  | nil => intro l; rfl
  | cons s rest ih => intro l; rw [labelRecurse, ih, outStr_ok]

theorem labelRecurse_bytes (ls : List (List Nat)) :
    ∀ l : Log, l.ok = true →
      (labelRecurse l ls).bytes = l.bytes ++ (ls.map fun s => s ++ [0]).flatten := by
  induction ls with
  | nil => intro l h; simp [labelRecurse]
  | cons s rest ih =>
    intro l h
    rw [labelRecurse, ih _ (by rw [outStr_ok]; exact h), outStr_bytes _ _ h]
    simp

theorem labelRecurse_not_ok (ls : List (List Nat)) :
    ∀ l : Log, l.ok = false → labelRecurse l ls = l := by
  induction ls with
  | nil => intro l _; rfl
  | cons s rest ih =>
    intro l h
    rw [labelRecurse, outStr_not_ok _ _ h, ih _ h]

theorem formatRecurse_ok (ts : List ScalarType) :
    ∀ l : Log, (formatRecurse l ts).ok = l.ok := by
  induction ts with
  | nil => intro l; rfl
  | cons t rest ih => intro l; rw [formatRecurse, ih, out_ok]

theorem formatRecurse_nextId (ts : List ScalarType) :
    ∀ l : Log, (formatRecurse l ts).nextId = l.nextId := by
  induction ts with
  | nil => intro l; rfl
  | cons t rest ih => intro l; rw [formatRecurse, ih, out_nextId]

theorem formatRecurse_bytes (ts : List ScalarType) :
    ∀ l : Log, l.ok = true →
      (formatRecurse l ts).bytes = l.bytes ++ ts.map ScalarType.tag := by
  induction ts with
  | nil => intro l h; simp [formatRecurse]
  | cons t rest ih =>
    intro l h
    rw [formatRecurse, ih _ (by rw [out_ok]; exact h), out_bytes _ _ h]
    simp

theorem formatRecurse_not_ok (ts : List ScalarType) :
    ∀ l : Log, l.ok = false → formatRecurse l ts = l := by
  induction ts with
  | nil => intro l _; rfl
  | cons t rest ih =>
    intro l h
    rw [formatRecurse, out_not_ok _ _ h, ih _ h]

theorem writeFormat_ok (l : Log) (d : StreamDecl) : (writeFormat l d).ok = l.ok := by
  cases d <;> simp [writeFormat, formatRecurse_ok, out_ok]

theorem writeFormat_nextId (l : Log) (d : StreamDecl) :
    (writeFormat l d).nextId = l.nextId := by
  cases d <;> simp [writeFormat, formatRecurse_nextId, out_nextId]

theorem writeFormat_not_ok (l : Log) (d : StreamDecl) (h : l.ok = false) :
    writeFormat l d = l := by
  cases d <;>
    simp [writeFormat, formatRecurse_not_ok _ _ h, out_not_ok _ _ h]

theorem writeFormat_bytes (l : Log) (d : StreamDecl) (h : l.ok = true) :
    (writeFormat l d).bytes = l.bytes ++ [specKindTag d] ++ specShapeBytes d := by
  cases d with
  | scalar fs =>
    rw [writeFormat,
      formatRecurse_bytes _ _ (by rw [out_ok, out_ok]; exact h),
      out_bytes _ _ (by rw [out_ok]; exact h), out_bytes _ _ h]
    simp [specKindTag, specShapeBytes, DataClass.tag]
  | vector ty n =>
    rw [writeFormat, out_bytes _ _ (by rw [out_ok, out_ok]; exact h),
      out_bytes _ _ (by rw [out_ok]; exact h), out_bytes _ _ h]
    simp [specKindTag, specShapeBytes, DataClass.tag]
  | matrix ty r c =>
    rw [writeFormat, out_bytes _ _ (by rw [out_ok, out_ok, out_ok]; exact h),
      out_bytes _ _ (by rw [out_ok, out_ok]; exact h),
      out_bytes _ _ (by rw [out_ok]; exact h), out_bytes _ _ h]
    simp [specKindTag, specShapeBytes, DataClass.tag]

theorem writeHeader_ok (l : Log) (id : Nat) (name : List Nat) (d : StreamDecl) :
    (writeHeader l id name d).ok = l.ok := by
  rw [writeHeader, writeFormat_ok, outStr_ok, out_ok, out_ok]

theorem writeHeader_nextId (l : Log) (id : Nat) (name : List Nat) (d : StreamDecl) :
    (writeHeader l id name d).nextId = l.nextId := by
  rw [writeHeader, writeFormat_nextId, outStr_nextId, out_nextId, out_nextId]

theorem writeHeader_not_ok (l : Log) (id : Nat) (name : List Nat) (d : StreamDecl)
    (h : l.ok = false) : writeHeader l id name d = l := by
  rw [writeHeader, writeFormat_not_ok, outStr_not_ok, out_not_ok, out_not_ok] <;>
    simp [outStr_ok, out_ok, h]

theorem writeHeader_bytes (l : Log) (id : Nat) (name : List Nat) (d : StreamDecl)
    (h : l.ok = true) :
    (writeHeader l id name d).bytes = l.bytes ++ specMetadataRecord id name d := by
  rw [writeHeader, writeFormat_bytes _ _ (by rw [outStr_ok, out_ok, out_ok]; exact h),
    outStr_bytes _ _ (by rw [out_ok, out_ok]; exact h),
    out_bytes _ _ (by rw [out_ok]; exact h), out_bytes _ _ h]
  simp [specMetadataRecord, Marker.tag]

theorem writeDataHead_ok (l : Log) (id ts : Nat) :
    (writeDataHead l id ts).ok = l.ok := by
  rw [writeDataHead, out_ok, out_ok, out_ok]

theorem writeDataHead_bytes (l : Log) (id ts : Nat) (h : l.ok = true) :
    (writeDataHead l id ts).bytes = l.bytes ++ [0xDB] ++ u32le id ++ u64le ts := by
  rw [writeDataHead, out_bytes _ _ (by rw [out_ok, out_ok]; exact h),
    out_bytes _ _ (by rw [out_ok]; exact h), out_bytes _ _ h]
  simp [Marker.tag]

theorem writeDataHead_not_ok (l : Log) (id ts : Nat) (h : l.ok = false) :
    writeDataHead l id ts = l := by
  rw [writeDataHead, out_not_ok, out_not_ok, out_not_ok] <;> simp [out_ok, h]

theorem addStream_id (l : Log) (name : List Nat) (d : StreamDecl) :
    (addStream l name d).2 = l.nextId := rfl

theorem addStream_nextId (l : Log) (name : List Nat) (d : StreamDecl) :
    (addStream l name d).1.nextId = (l.nextId + 1) % 2 ^ 32 := by
  simp [addStream, writeHeader_nextId]

theorem addStream_ok (l : Log) (name : List Nat) (d : StreamDecl) :
    (addStream l name d).1.ok = l.ok := by
  simp [addStream, writeHeader_ok]

/-- On a failed sink every operation appends nothing, leaves the sink
failed, and still returns normally (`applyOp` is a total function with no
error channel, matching the exception-free source). -/
theorem applyOp_not_ok (l : Log) (op : Op) (h : l.ok = false) :
    (applyOp l op).bytes = l.bytes ∧ (applyOp l op).ok = false := by
  cases op with
  | add name d =>
    have h2 : ({ l with nextId := (l.nextId + 1) % 2 ^ 32 } : Log).ok = false := h
    show ((addStream l name d).1.bytes = l.bytes ∧ (addStream l name d).1.ok = false)
    rw [show (addStream l name d).1 =
          writeHeader { l with nextId := (l.nextId + 1) % 2 ^ 32 } l.nextId name d from rfl,
      writeHeader_not_ok _ _ _ _ h2]
    exact ⟨rfl, h⟩
  | slog id ts vs =>
    show (scalarLog l id ts vs).bytes = l.bytes ∧ (scalarLog l id ts vs).ok = false
    rw [scalarLog, writeDataHead_not_ok l id ts h, logRecurse_not_ok vs l h]
    exact ⟨rfl, h⟩
  | vlog id ts m =>
    show (vectorLog l id ts m).bytes = l.bytes ∧ (vectorLog l id ts m).ok = false
    rw [vectorLog, writeDataHead_not_ok l id ts h, Log.outEigen, out_not_ok l _ h]
    exact ⟨rfl, h⟩
  | mlog id ts m =>
    show (matrixLog l id ts m).bytes = l.bytes ∧ (matrixLog l id ts m).ok = false
    rw [matrixLog, writeDataHead_not_ok l id ts h, Log.outEigen, out_not_ok l _ h]
    exact ⟨rfl, h⟩
  | labels id ls =>
    show (setLabels l id ls).bytes = l.bytes ∧ (setLabels l id ls).ok = false
    rw [setLabels, out_not_ok l [Marker.LABELS.tag] h, out_not_ok l (u32le id) h,
      labelRecurse_not_ok ls l h]
    exact ⟨rfl, h⟩

theorem runOps_not_ok (ops : List Op) :
    ∀ l : Log, l.ok = false →
      (runOps l ops).bytes = l.bytes ∧ (runOps l ops).ok = false := by
  induction ops with
  | nil => exact fun l h => ⟨rfl, h⟩
  | cons op rest ih =>
    intro l h
    obtain ⟨hb, ho⟩ := applyOp_not_ok l op h
    obtain ⟨hb2, ho2⟩ := ih (applyOp l op) ho
    exact ⟨by rw [runOps, hb2, hb], by rw [runOps, ho2]⟩

/-- The ids a run of `add_*_stream` calls hands out are the successive
values of the wrapping `unsigned int` counter. -/
theorem collectIds_spec (ds : List (List Nat × StreamDecl)) :
    ∀ l : Log, l.nextId < 2 ^ 32 →
      collectIds l ds = (List.range ds.length).map fun i => (l.nextId + i) % 2 ^ 32 := by
  induction ds with
  | nil => intro l _; rfl
  | cons nd rest ih =>
    intro l h
    have h2 : (addStream l nd.1 nd.2).1.nextId = (l.nextId + 1) % 2 ^ 32 :=
      addStream_nextId l nd.1 nd.2
    have h3 : (addStream l nd.1 nd.2).1.nextId < 2 ^ 32 := by
      rw [h2]; exact Nat.mod_lt _ (by norm_num)
    show (addStream l nd.1 nd.2).2 :: collectIds (addStream l nd.1 nd.2).1 rest = _
    rw [ih _ h3, h2, addStream_id, List.length_cons, List.range_succ_eq_map,
      List.map_cons, List.map_map]
    refine congrArg₂ _ (by rw [Nat.add_zero, Nat.mod_eq_of_lt h]) ?_
    refine List.map_congr_left fun i _ => ?_
    show ((l.nextId + 1) % 2 ^ 32 + i) % 2 ^ 32 = (l.nextId + (i + 1)) % 2 ^ 32
    rw [Nat.mod_add_mod]
    omega

/-- Small-step semantics of the caller-visible operations: each rule spells
out the successor state the source produces for that operation. -/
inductive Step : Log → Op → Log → Prop where
  | add (l : Log) (name : List Nat) (d : StreamDecl) :
      Step l (Op.add name d) (addStream l name d).1
  | slog (l : Log) (id ts : Nat) (vs : List Value) :
      Step l (Op.slog id ts vs) (scalarLog l id ts vs)
  | vlog (l : Log) (id ts : Nat) (m : EigenMatrix) :
      Step l (Op.vlog id ts m) (vectorLog l id ts m)
  | mlog (l : Log) (id ts : Nat) (m : EigenMatrix) :
      Step l (Op.mlog id ts m) (matrixLog l id ts m)
  | labels (l : Log) (id : Nat) (ls : List (List Nat)) :
      Step l (Op.labels id ls) (setLabels l id ls)

/-- A whole run: the operations applied in order from an initial state. -/
inductive Run : Log → List Op → Log → Prop where
  | nil (l : Log) : Run l [] l
  | cons {l l2 l3 : Log} {op : Op} {ops : List Op} :
      Step l op l2 → Run l2 ops l3 → Run l (op :: ops) l3

theorem step_deterministic {l s1 s2 : Log} {op : Op}
    (h1 : Step l op s1) (h2 : Step l op s2) : s1 = s2 := by
  cases h1 <;> cases h2 <;> rfl

theorem run_deterministic {ops : List Op} {l s1 s2 : Log}
    (h1 : Run l ops s1) (h2 : Run l ops s2) : s1 = s2 := by
  induction h1 generalizing s2 with
  | nil => cases h2; rfl
  | cons hs hr ih =>
    cases h2 with
    | cons hs2 hr2 =>
      have he := step_deterministic hs hs2
      subst he
      exact ih hr2

/-! ### The claims -/

/-- C8: the one-byte wire constants are exactly METADATA = 0xA5,
LABELS = 0x66, DATA = 0xDB; StreamKind tags Scalar = 0, Vector = 1,
Matrix = 2; and ScalarType tags u8 = 0, i8 = 1, u16 = 2, i16 = 3, u32 = 4,
i32 = 5, u64 = 6, i64 = 7, f32 = 8, f64 = 9, bool = 10. -/
theorem c8_wire_constants :
    Marker.METADATA.tag = 0xA5 ∧ Marker.LABELS.tag = 0x66 ∧
    Marker.DATA.tag = 0xDB ∧
    DataClass.SCALAR.tag = 0 ∧ DataClass.VECTOR.tag = 1 ∧
    DataClass.MATRIX.tag = 2 ∧
    ScalarType.u8.tag = 0 ∧ ScalarType.i8.tag = 1 ∧ ScalarType.u16.tag = 2 ∧
    ScalarType.i16.tag = 3 ∧ ScalarType.u32.tag = 4 ∧ ScalarType.i32.tag = 5 ∧
    ScalarType.u64.tag = 6 ∧ ScalarType.i64.tag = 7 ∧ ScalarType.f32.tag = 8 ∧
    ScalarType.f64.tag = 9 ∧ ScalarType.boolean.tag = 10 := by
  decide

/-- C9: a Log on which no `add_*_stream` (and hence no handle operation)
was ever performed produces an empty output: its byte stream is empty at
construction and still empty when it is closed after the empty operation
sequence. -/
theorem c9_no_streams_empty_output :
    (mkLog true).bytes = [] ∧ runOps (mkLog true) [] = mkLog true := by
  decide

/-- C3: a scalar-stream `log(timestamp, values...)` appends exactly the
DATA marker byte, the 4-byte stream id, the 8-byte timestamp, then each
value's fixed-width representation in declared order with no padding
(each value contributes exactly `sizeof` of its type). -/
theorem c3_scalar_log_layout (l : Log) (id ts : Nat) (vs : List Value)
    (h : l.ok = true) :
    (scalarLog l id ts vs).bytes =
      l.bytes ++ [0xDB] ++ u32le id ++ u64le ts ++
        (vs.map Value.serialize).flatten ∧
    (u32le id).length = 4 ∧ (u64le ts).length = 8 ∧
    ∀ v ∈ vs, (Value.serialize v).length = v.ty.width := by
  refine ⟨?_, leBytes_length 4 id, leBytes_length 8 ts,
    fun v _ => leBytes_length v.ty.width v.bits⟩
  rw [scalarLog, logRecurse_bytes _ _ (by rw [writeDataHead_ok]; exact h),
    writeDataHead_bytes _ _ _ h]

/-- Witness for C3, at the spec's own example: a stream of field types
(i32, f32, f64) logging `(4000, 4298, 8.35f, 654.23)` with stream id 7
appends `DATA | 7(4B) | 4000(8B) | 4298(4B,i32) | 8.35(4B,f32) |
654.23(8B,f64)` — 29 bytes, little-endian host representation. -/
theorem c3_scalar_log_layout_witness :
    (scalarLog (mkLog true) 7 4000
        [⟨ScalarType.i32, 4298⟩, ⟨ScalarType.f32, 0x4105999A⟩,
          ⟨ScalarType.f64, 0x408471D70A3D70A4⟩]).bytes =
      [0xDB, 7, 0, 0, 0,
       160, 15, 0, 0, 0, 0, 0, 0,
       202, 16, 0, 0,
       154, 153, 5, 65,
       164, 112, 61, 10, 215, 113, 132, 64] :=
  ((c3_scalar_log_layout (mkLog true) 7 4000
      [⟨ScalarType.i32, 4298⟩, ⟨ScalarType.f32, 0x4105999A⟩,
        ⟨ScalarType.f64, 0x408471D70A3D70A4⟩] rfl).1).trans (by decide)

/-- C2 counterexample: calling `set_labels` twice on the same handle does
not fail — the source has no once-only guard — and the second call's bytes
do appear in the output: after two identical calls the file holds two
complete LABELS records. -/
theorem c2_second_set_labels_emits_bytes :
    (setLabels (setLabels (mkLog true) 0 [[97]]) 0 [[97]]).bytes =
      (setLabels (mkLog true) 0 [[97]]).bytes ++
        [0x66, 0, 0, 0, 0, 97, 0] ∧
    (setLabels (setLabels (mkLog true) 0 [[97]]) 0 [[97]]).bytes ≠
      (setLabels (mkLog true) 0 [[97]]).bytes := by
  decide

/-- C2 as amended: `set_labels` is unguarded — every call (first, second,
or later) succeeds and appends one complete LABELS record: the LABELS
marker, the 4-byte stream id, and each label null-terminated, in order. -/
theorem c2_set_labels_unguarded (l : Log) (id : Nat) (ls : List (List Nat))
    (h : l.ok = true) :
    (setLabels l id ls).bytes =
      l.bytes ++ [0x66] ++ u32le id ++ (ls.map fun s => s ++ [0]).flatten := by
  rw [setLabels, labelRecurse_bytes _ _ (by rw [out_ok, out_ok]; exact h),
    out_bytes _ _ (by rw [out_ok]; exact h), out_bytes _ _ h]
  simp [Marker.tag]

/-- Witness for the amended C2: the second of two identical `set_labels`
calls appends a full LABELS record to the bytes of the first. -/
theorem c2_set_labels_unguarded_witness :
    (setLabels (setLabels (mkLog true) 3 [[97], [98]]) 3 [[97], [98]]).bytes =
      (setLabels (mkLog true) 3 [[97], [98]]).bytes ++ [0x66] ++ u32le 3 ++
        (([[97], [98]] : List (List Nat)).map fun s => s ++ [0]).flatten :=
  c2_set_labels_unguarded (setLabels (mkLog true) 3 [[97], [98]]) 3
    [[97], [98]] (by decide)

/-- C1: the claim says a vector/matrix `log` payload is the container's
raw element bytes, `element_count * sizeof(T)` of them.  The source's
Eigen overload instead passes `data.size()` — the *element count* — as the
byte count of `file_.write`, so only `element_count` bytes are written.
The two agree only when `sizeof(T) = 1` (the spec's u8 example): here a
3-element f64 vector (24-byte container) yields a 3-byte payload (16-byte
record, not 13 + 24 = 37), and a 3×3 f32 matrix (36-byte container) yields
a 9-byte payload (22-byte record, not 13 + 36 = 49); the u8 case with
element_count = 6 does produce the full 6 bytes. -/
theorem c1_eigen_payload_truncated :
    (vectorLog (mkLog true) 0 4001
        ⟨8, 3, 1, List.replicate 24 5⟩).bytes.length = 13 + 3 ∧
    (⟨8, 3, 1, List.replicate 24 5⟩ : EigenMatrix).storage.length = 24 ∧
    (matrixLog (mkLog true) 1 4002
        ⟨4, 3, 3, List.replicate 36 7⟩).bytes.length = 13 + 9 ∧
    (⟨4, 3, 3, List.replicate 36 7⟩ : EigenMatrix).storage.length = 36 ∧
    (vectorLog (mkLog true) 2 4001
        ⟨1, 6, 1, [10, 11, 12, 13, 14, 15]⟩).bytes =
      [0xDB, 2, 0, 0, 0, 161, 15, 0, 0, 0, 0, 0, 0,
       10, 11, 12, 13, 14, 15] := by
  decide

/-- C4: every `add_*_stream` call appends the complete metadata record —
METADATA marker, 4-byte stream id, null-terminated name, one-byte
StreamKind tag, and the kind-specific shape payload — to the returned
state, i.e. before the handle reaches the caller, and the handle carries
the id that record names. -/
theorem c4_add_stream_emits_metadata (l : Log) (name : List Nat)
    (d : StreamDecl) (h : l.ok = true) :
    (addStream l name d).1.bytes = l.bytes ++ specMetadataRecord l.nextId name d ∧
    (addStream l name d).2 = l.nextId ∧
    (addStream l name d).1.ok = true := by
  have h2 : ({ l with nextId := (l.nextId + 1) % 2 ^ 32 } : Log).ok = true := h
  refine ⟨?_, rfl, ?_⟩
  · rw [show (addStream l name d).1 =
        writeHeader { l with nextId := (l.nextId + 1) % 2 ^ 32 } l.nextId name d from rfl,
      writeHeader_bytes _ _ _ _ h2]
  · rw [addStream_ok]; exact h

/-- Witness for C4: adding a scalar stream named "s" with fields
(i32, f32) to a fresh Log writes
`0xA5 | 0(4B) | "s\0" | 0 | 2(4B) | 5 | 8` before the handle (id 0)
is returned. -/
theorem c4_add_stream_emits_metadata_witness :
    (addStream (mkLog true) [115] (StreamDecl.scalar
        [ScalarType.i32, ScalarType.f32])).1.bytes =
      [0xA5, 0, 0, 0, 0, 115, 0, 0, 2, 0, 0, 0, 5, 8] ∧
    (addStream (mkLog true) [115] (StreamDecl.scalar
        [ScalarType.i32, ScalarType.f32])).2 = 0 := by
  have h := c4_add_stream_emits_metadata (mkLog true) [115]
    (StreamDecl.scalar [ScalarType.i32, ScalarType.f32]) rfl
  exact ⟨h.1.trans (by decide), h.2.1⟩

/-- C5 counterexample: a `log` call on a Log whose sink has failed
completes normally and leaves the state untouched — the failure is
silently masked, nothing resembling an IOError reaches the caller
(`applyOp` is a total function into `Log`; the source's `ofstream` has
exceptions disabled and its state is never inspected). -/
theorem c5_failed_write_is_silent :
    applyOp (mkLog false) (Op.slog 0 4000 [⟨ScalarType.i32, 4298⟩]) =
      mkLog false := by
  decide

/-- C5 as amended: a sink-level write failure is masked, not propagated:
on a failed sink every `log`, `set_labels` and `add_*_stream` operation
appends nothing, leaves the sink failed, and returns normally to the
caller with no error of any kind. -/
theorem c5_sink_failure_masked (l : Log) (op : Op) (h : l.ok = false) :
    (applyOp l op).bytes = l.bytes ∧ (applyOp l op).ok = false :=
  applyOp_not_ok l op h

/-- Witness for the amended C5: `set_labels` on a failed sink leaves the
byte stream untouched. -/
theorem c5_sink_failure_masked_witness :
    (applyOp (mkLog false) (Op.labels 0 [[97]])).bytes = (mkLog false).bytes ∧
    (applyOp (mkLog false) (Op.labels 0 [[97]])).ok = false :=
  c5_sink_failure_masked (mkLog false) (Op.labels 0 [[97]]) rfl

/-- C6 counterexample: constructing a Log whose destination cannot be
opened does not fail — `mkLog false` is a perfectly ordinary value (the
C++ constructor body is just the member initializer; `ofstream` sets its
failbit instead of throwing) — and the resulting object is silently
unusable: declaring a stream on it writes nothing. -/
theorem c6_unopenable_destination_gives_unusable_log :
    mkLog false = ⟨[], false, 0⟩ ∧
    (runOps (mkLog false)
        [Op.add [115] (StreamDecl.scalar [ScalarType.i32])]).bytes = [] := by
  decide

/-- C6 as amended: Log construction never fails; with an unopenable
destination it silently yields an unusable object — whatever operations
are performed on it, the output stays empty and the sink stays failed,
with no ConfigurationError anywhere. -/
theorem c6_construction_never_fails (ops : List Op) :
    (runOps (mkLog false) ops).bytes = [] ∧
    (runOps (mkLog false) ops).ok = false :=
  runOps_not_ok ops (mkLog false) rfl

/-- C7 counterexample: `next_id_` is a wrapping 32-bit `unsigned int`, so
ids are not "never reused": in a run of `2 ^ 32 + 1` stream declarations
the last declaration is assigned id 0, the same id as the first — ids are
neither strictly increasing nor unique beyond the first `2 ^ 32`
declarations. -/
theorem c7_id_reused_after_wraparound :
    (collectIds (mkLog true)
        (List.replicate (2 ^ 32 + 1) ([], StreamDecl.scalar [])))[2 ^ 32]? =
      some 0 ∧
    (collectIds (mkLog true)
        (List.replicate (2 ^ 32 + 1) ([], StreamDecl.scalar [])))[0]? =
      some 0 ∧
    (2 ^ 32 : Nat) ≠ 0 := by
  rw [collectIds_spec _ _ (by show (0 : Nat) < 2 ^ 32; norm_num)]
  refine ⟨?_, ?_, by norm_num⟩
  · rw [List.length_replicate, List.getElem?_map,
      List.getElem?_range (Nat.lt_succ_self _)]
    show some (((mkLog true).nextId + 2 ^ 32) % 2 ^ 32) = some 0
    rw [show (mkLog true).nextId = 0 from rfl, Nat.zero_add, Nat.mod_self]
  · rw [List.length_replicate, List.getElem?_map,
      List.getElem?_range (Nat.succ_pos _)]
    show some (((mkLog true).nextId + 0) % 2 ^ 32) = some 0
    rw [show (mkLog true).nextId = 0 from rfl, Nat.add_zero, Nat.zero_mod]

/-- C7 as amended: within one Log, ids are assigned in declaration order
as the declaration index mod `2 ^ 32`, independent of which kinds of
streams are interleaved; for every declaration index below `2 ^ 32`
(hence in every realistic log) the i-th declared stream gets id i —
0, 1, 2, … strictly increasing and never reused. -/
theorem c7_ids_sequential (ds : List (List Nat × StreamDecl)) (i : Nat)
    (h1 : i < ds.length) (h2 : i < 2 ^ 32) :
    (collectIds (mkLog true) ds)[i]? = some i := by
  rw [collectIds_spec ds (mkLog true) (by show (0 : Nat) < 2 ^ 32; norm_num),
    List.getElem?_map, List.getElem?_range h1]
  show some (((mkLog true).nextId + i) % 2 ^ 32) = some i
  rw [show (mkLog true).nextId = 0 from rfl, Nat.zero_add, Nat.mod_eq_of_lt h2]

/-- Witness for the amended C7: a vector stream declared after two scalar
streams gets id 2. -/
theorem c7_ids_sequential_witness :
    (collectIds (mkLog true)
        [([97], StreamDecl.scalar [ScalarType.u8]),
         ([98], StreamDecl.scalar [ScalarType.u8]),
         ([99], StreamDecl.vector ScalarType.f32 3)])[2]? = some 2 :=
  c7_ids_sequential
    [([97], StreamDecl.scalar [ScalarType.u8]),
     ([98], StreamDecl.scalar [ScalarType.u8]),
     ([99], StreamDecl.vector ScalarType.f32 3)] 2 (by decide) (by norm_num)

/-- C10: the output is a deterministic function of the operation
sequence — two runs that construct a Log on an openable destination and
perform the identical operations reach the same state, in particular
byte-for-byte identical files; the state is nothing but the bytes, the
sink flag and the id counter, and no step consults time or randomness. -/
theorem c10_output_deterministic (ops : List Op) (s1 s2 : Log)
    (h1 : Run (mkLog true) ops s1) (h2 : Run (mkLog true) ops s2) :
    s1.bytes = s2.bytes ∧ s1 = s2 := by
  have h := run_deterministic h1 h2
  exact ⟨by rw [h], h⟩

/-- Witness for C10: two derivations of the same one-operation run end in
the same state. -/
theorem c10_output_deterministic_witness :
    (addStream (mkLog true) [115] (StreamDecl.scalar [ScalarType.i32])).1.bytes =
      (addStream (mkLog true) [115] (StreamDecl.scalar [ScalarType.i32])).1.bytes ∧
    (addStream (mkLog true) [115] (StreamDecl.scalar [ScalarType.i32])).1 =
      (addStream (mkLog true) [115] (StreamDecl.scalar [ScalarType.i32])).1 :=
  c10_output_deterministic [Op.add [115] (StreamDecl.scalar [ScalarType.i32])]
    _ _ (Run.cons (Step.add _ _ _) (Run.nil _))
    (Run.cons (Step.add _ _ _) (Run.nil _))

end Tidal
